import Mathlib

/-!
# Verification of the gladiatus-automator opponent-history subsystem

Shallow embedding of the opponent-history and opponent-selection code of the
repository:

* `src/storage.js` — flat-map history (`updateTurmaAttackHistory`,
  `loadTurmaHistory`), keyed by opponent name;
* `src/unnamed/part_001` (a second `storage.js` variant) — the
  `{reports, opponents}` two-level history keyed by report id, plus another
  copy of the flat-map updater;
* `src/turma-attack.js` / `src/arena-attack.js` — `selectOptimalAttack`,
  the ranking-based opponent selection (the two files share the same body,
  differing only in the storage key they read).

JS objects are modelled as association lists in property-insertion order,
JS numbers in the history aggregates as `Int`/`Nat` (the code only ever adds
integers produced by `Number(x) || 0` coercion), derived win rates as `ℚ`,
and promises as `Except String`.
-/

namespace Gladiatus

/-- JS `Number(x) || 0` applied to a possibly missing numeric field:
a missing (or malformed, i.e. `NaN`) field reads as `0`. -/
def numOr0 : Option Int → Int
  | none => 0
  | some n => n

/-- JS `s || d` for a possibly missing string field: `undefined` and the
empty string are falsy, so both fall back to the default. -/
def strOr : Option String → String → String
  | none, d => d
  | some s, d => if s = "" then d else s

/-- JS object property read `obj[k]`, on the association-list model:
first (in a real JS object: only) binding of the key wins. -/
def jsLookup {α : Type} (h : List (String × α)) (k : String) : Option α :=
  match h with
  | [] => none
  | (k', v) :: t => if k' = k then some v else jsLookup t k

/-- JS object property write `obj[k] = v`: updates the binding in place when
the key is present, otherwise appends it (JS property insertion order). -/
def jsSet {α : Type} (h : List (String × α)) (k : String) (v : α) :
    List (String × α) :=
  match h with
  | [] => [(k, v)]
  | (k', w) :: t => if k' = k then (k, v) :: t else (k', w) :: jsSet t k v

/-! ## Flat-map history (`src/storage.js`; second copy at
`src/unnamed/part_001` lines 196–226, same update logic) -/

/-- An attack result passed to the flat `updateTurmaAttackHistory`:
`{ state, goldWon, xpGained, ... }`.  `state` is the raw string scraped from
the report page; the numeric fields may be missing (they are read through
`Number(x) || 0`). -/
structure AttackResult where
  state : String
  goldWon : Option Int := none
  xpGained : Option Int := none
deriving DecidableEq, Repr

/-- One opponent's record in the flat history
(`src/storage.js` lines 37–45). -/
structure OppRecord where
  results : List AttackResult
  wins : Nat
  losses : Nat
  draws : Nat
  goldWon : Int
  xpGained : Int
  attackCount : Nat
deriving DecidableEq, Repr

/-- The global `window.turmaAttackHistory` in the flat variant: a JS object keyed by
opponent name. -/
abbrev FlatHistory := List (String × OppRecord)

namespace Flat

/-- The function `window.updateTurmaAttackHistory(opponent, result)` from
`src/storage.js` lines 15–56 (in-memory part; the trailing
`chrome.storage.local.set` persistence call has no effect on the returned
structure). -/
def updateTurmaAttackHistory (hist : FlatHistory) (opponent : String)
    (result : AttackResult) : FlatHistory :=
  match jsLookup hist opponent with
  | some rec =>
    let rec1 : OppRecord :=
      { rec with
        results := rec.results ++ [result]
        attackCount := rec.attackCount + 1 }
    let rec2 : OppRecord :=
      if result.state = "win" then
        { rec1 with
          wins := rec1.wins + 1
          goldWon := rec1.goldWon + numOr0 result.goldWon }
      else if result.state = "loss" then
        { rec1 with losses := rec1.losses + 1 }
      else
        { rec1 with draws := rec1.draws + 1 }
    jsSet hist opponent rec2
  | none =>
    jsSet hist opponent
      { results := [result]
        wins := if result.state = "win" then 1 else 0
        losses := if result.state = "loss" then 1 else 0
        draws := if result.state = "draw" then 1 else 0
        goldWon := if result.state = "win" then numOr0 result.goldWon else 0
        xpGained := numOr0 result.xpGained
        attackCount := 1 }

/-- The function `window.loadTurmaHistory()` from `src/storage.js` lines
64–80.  The
promise executor only ever calls `resolve`, modelled as `Except.ok`; the
input is the outcome of the `chrome.storage.local.get` callback: either a
runtime error (`lastError` set) or the possibly-absent stored value. -/
def loadTurmaHistory (stored : Except String (Option FlatHistory)) :
    Except String FlatHistory :=
  match stored with
  | .error _ => .ok []
  | .ok none => .ok []
  | .ok (some h) => .ok h

/-- The `goldWon` aggregate of an opponent, a missing record reading as 0. -/
def goldWonOf (hist : FlatHistory) (o : String) : Int :=
  match jsLookup hist o with
  | none => 0
  | some rec => rec.goldWon

/-- The `xpGained` aggregate of an opponent, a missing record reading as 0. -/
def xpGainedOf (hist : FlatHistory) (o : String) : Int :=
  match jsLookup hist o with
  | none => 0
  | some rec => rec.xpGained

/-- The `attackCount` of an opponent, a missing record reading as 0. -/
def attackCountOf (hist : FlatHistory) (o : String) : Nat :=
  match jsLookup hist o with
  | none => 0
  | some rec => rec.attackCount

/-- The length of the raw `results` list of an opponent, a missing record
reading as 0. -/
def resultsLenOf (hist : FlatHistory) (o : String) : Nat :=
  match jsLookup hist o with
  | none => 0
  | some rec => rec.results.length

end Flat

/-- The `attackCount == wins + losses + draws` invariant over every record of
a flat history. -/
def FlatCountInv (hist : FlatHistory) : Prop :=
  ∀ p ∈ hist, p.2.attackCount = p.2.wins + p.2.losses + p.2.draws

/-- The `results.length == attackCount` invariant over every record of a
flat history. -/
def FlatLenInv (hist : FlatHistory) : Prop :=
  ∀ p ∈ hist, p.2.results.length = p.2.attackCount

/-! ## Two-level `{reports, opponents}` history
(`src/unnamed/part_001` lines 19–121) -/

/-- The fight data passed to the report-keyed `updateTurmaAttackHistory`:
`{ state, goldWon, xpGained, timestamp, ... }`. -/
structure FightData where
  state : String
  goldWon : Option Int := none
  xpGained : Option Int := none
  timestamp : Option String := none
deriving DecidableEq, Repr

/-- The per-report summary stored under `reports[reportId]`
(`src/unnamed/part_001` lines 31–38). -/
structure Report where
  state : String
  goldWon : Int
  xpGained : Int
  timestamp : String
deriving DecidableEq, Repr

/-- The per-opponent aggregate record stored under `opponents[name]`
(`src/unnamed/part_001` lines 45–53). -/
structure TurmaOpp where
  reportIds : List String
  wins : Nat
  losses : Nat
  draws : Nat
  goldWon : Int
  xpGained : Int
  attackCount : Nat
deriving DecidableEq, Repr

/-- The two-level `window.turmaAttackHistory` structure:
`{ reports: {}, opponents: {} }`. -/
structure TurmaStore where
  reports : List (String × Report)
  opponents : List (String × TurmaOpp)
deriving DecidableEq, Repr

/-- The freshly initialised store `{reports: {}, opponents: {}}`. -/
def emptyTurmaStore : TurmaStore := { reports := [], opponents := [] }

namespace Reports

/-- The zero-initialised opponent record created on first sight of an
opponent (`src/unnamed/part_001` lines 45–53). -/
def zeroOpp : TurmaOpp :=
  { reportIds := [], wins := 0, losses := 0, draws := 0, goldWon := 0
    xpGained := 0, attackCount := 0 }

/-- The function `window.updateTurmaAttackHistory(reportId, opponent,
fightData)` from
`src/unnamed/part_001` lines 19–78 (in-memory part; the trailing
`storeTurmaHistory()` persistence call has no effect on the returned
structure).  `now` stands for the impure `new Date().toISOString()` used
when the event carries no timestamp. -/
def updateTurmaAttackHistory (s : TurmaStore) (reportId opponent : String)
    (fightData : FightData) (now : String) : TurmaStore :=
  let alreadyExists := (jsLookup s.reports reportId).isSome
  let reports1 :=
    if alreadyExists then s.reports
    else
      jsSet s.reports reportId
        { state := fightData.state
          goldWon := numOr0 fightData.goldWon
          xpGained := numOr0 fightData.xpGained
          timestamp := strOr fightData.timestamp now }
  let opponents1 :=
    if (jsLookup s.opponents opponent).isSome then s.opponents
    else jsSet s.opponents opponent zeroOpp
  let oppRecord := (jsLookup opponents1 opponent).getD zeroOpp
  let rec1 :=
    if oppRecord.reportIds.contains reportId then oppRecord
    else { oppRecord with reportIds := oppRecord.reportIds ++ [reportId] }
  let rec2 :=
    if alreadyExists then rec1
    else
      let recA := { rec1 with attackCount := rec1.attackCount + 1 }
      let recB :=
        if fightData.state = "win" then
          { recA with
            wins := recA.wins + 1
            goldWon := recA.goldWon + numOr0 fightData.goldWon }
        else if fightData.state = "loss" then
          { recA with losses := recA.losses + 1 }
        else
          { recA with draws := recA.draws + 1 }
      { recB with xpGained := recB.xpGained + numOr0 fightData.xpGained }
  { reports := reports1, opponents := jsSet opponents1 opponent rec2 }

/-- The function `window.loadTurmaHistory()` from `src/unnamed/part_001`
lines 105–121.
The promise executor only ever calls `resolve`, modelled as `Except.ok`. -/
def loadTurmaHistory (stored : Except String (Option TurmaStore)) :
    Except String TurmaStore :=
  match stored with
  | .error _ => .ok emptyTurmaStore
  | .ok none => .ok emptyTurmaStore
  | .ok (some s) => .ok s

/-- The `goldWon` aggregate of an opponent, a missing record reading as 0. -/
def goldWonOf (s : TurmaStore) (o : String) : Int :=
  match jsLookup s.opponents o with
  | none => 0
  | some rec => rec.goldWon

/-- The `xpGained` aggregate of an opponent, a missing record reading as 0. -/
def xpGainedOf (s : TurmaStore) (o : String) : Int :=
  match jsLookup s.opponents o with
  | none => 0
  | some rec => rec.xpGained

/-- The `attackCount` of an opponent, a missing record reading as 0. -/
def attackCountOf (s : TurmaStore) (o : String) : Nat :=
  match jsLookup s.opponents o with
  | none => 0
  | some rec => rec.attackCount

/-- All six aggregate counters of an opponent at once
(`wins`, `losses`, `draws`, `goldWon`, `xpGained`, `attackCount`),
a missing record reading as all zeroes. -/
def oppAggOf (s : TurmaStore) (o : String) :
    Nat × Nat × Nat × Int × Int × Nat :=
  match jsLookup s.opponents o with
  | none => (0, 0, 0, 0, 0, 0)
  | some rec =>
    (rec.wins, rec.losses, rec.draws, rec.goldWon, rec.xpGained,
      rec.attackCount)

end Reports

/-- The `attackCount == wins + losses + draws` invariant over every opponent
record of a two-level store. -/
def RepCountInv (s : TurmaStore) : Prop :=
  ∀ p ∈ s.opponents, p.2.attackCount = p.2.wins + p.2.losses + p.2.draws

/-! ## Opponent selection
(`src/turma-attack.js` and `src/arena-attack.js`: the two files carry the
same `selectOptimalAttack` body; they differ only in the storage key read —
`gladex_turma_history` vs `gladex_arena_history` — which is abstracted here
into the `stored` argument) -/

/-- One `.attack` element as seen by the extraction loop: whether
`attackDiv.closest("tr")` found a row, the trimmed text of the first cell's
link, and an opaque handle standing for the `attackDiv` jQuery object. -/
structure RawAttack where
  hasRow : Bool
  name : String
  handle : Nat
deriving DecidableEq, Repr

/-- An entry of the `opponents` array built by `selectOptimalAttack`
(`src/turma-attack.js` lines 104–109). -/
structure Candidate where
  handle : Nat
  opponentName : String
  winRate : ℚ
  averageGold : ℚ
deriving DecidableEq, Repr

/-- The candidate-extraction loop of `selectOptimalAttack`
(`src/turma-attack.js` lines 71–110): skip elements without a row or with an
empty name; compute `winRate`/`averageGold` from the stored history when
`history && history.attackCount > 0`, else assign the neutral defaults
`0.5` (written `mkRat 1 2`) and `100`. -/
def extractOpponents (hist : FlatHistory) (raw : List RawAttack) :
    List Candidate :=
  raw.filterMap fun a =>
    if a.hasRow = false then none
    else if a.name = "" then none
    else
      match jsLookup hist a.name with
      | some history =>
        if 0 < history.attackCount then
          some
            { handle := a.handle
              opponentName := a.name
              winRate := (history.wins : ℚ) / (history.attackCount : ℚ)
              averageGold :=
                if 0 < history.wins then
                  (history.goldWon : ℚ) / (history.wins : ℚ)
                else 0 }
        else
          some
            { handle := a.handle
              opponentName := a.name
              winRate := mkRat 1 2
              averageGold := 100 }
      | none =>
        some
          { handle := a.handle
            opponentName := a.name
            winRate := mkRat 1 2
            averageGold := 100 }

/-- The "may precede" relation induced by the sort comparator of
`selectOptimalAttack` (`src/turma-attack.js` lines 119–124):
`rankLe a b` holds exactly when the comparator returns a value `≤ 0` on
`(a, b)` — descending `winRate`, ties broken by descending `averageGold`. -/
def rankLe (a b : Candidate) : Bool :=
  if a.winRate ≠ b.winRate then decide (b.winRate < a.winRate)
  else decide (b.averageGold ≤ a.averageGold)

/-- Stable insertion of an element in front of the first list element it may
precede.  Together with `stableSortBy` this models the in-place
`Array.prototype.sort`, which ECMAScript guarantees to be stable. -/
def insertBy (le : Candidate → Candidate → Bool) (a : Candidate) :
    List Candidate → List Candidate
  | [] => [a]
  | b :: t => if le a b then a :: b :: t else b :: insertBy le a t

/-- Stable sort by the given "may precede" relation (insertion sort: earlier
input elements stay in front of later elements they tie with, exactly the
guarantee `Array.prototype.sort` gives for a comparator returning 0). -/
def stableSortBy (le : Candidate → Candidate → Bool) :
    List Candidate → List Candidate
  | [] => []
  | a :: t => insertBy le a (stableSortBy le t)

/-- The ranking core of `selectOptimalAttack` after the storage read
(`src/turma-attack.js` lines 57–136): extract candidates, resolve `null` on
an empty `.attack` list or an empty candidate list, sort, then either pick
the top-ranked candidate (`winRate > 0`) or index the sorted array at
`Math.floor(Math.random() * opponents.length)`; `q` stands for the value
drawn from `Math.random()`, which lies in `[0, 1)`. -/
def selectAttackCore (hist : FlatHistory) (raw : List RawAttack) (q : ℚ) :
    Option Nat :=
  if raw.length = 0 then none
  else
    let opponents := extractOpponents hist raw
    if opponents.length = 0 then none
    else
      let sorted := stableSortBy rankLe opponents
      match sorted with
      | [] => none
      | top :: _ =>
        if 0 < top.winRate then some top.handle
        else
          let randomIndex := (⌊q * (sorted.length : ℚ)⌋).toNat
          (sorted[randomIndex]?).map (fun c => c.handle)

/-- The function `window.selectOptimalAttack(topElement)` from
`src/turma-attack.js`
lines 40–139 (and, verbatim up to the storage key, `src/arena-attack.js`
lines 1–100).  The promise is modelled as `Except`: `topValid` stands for
`topElement instanceof jQuery`; `stored` is the outcome of the
`chrome.storage.local.get` callback (`lastError`, or the possibly-absent
value under the history key, which falls back to `{}` when falsy). -/
def selectOptimalAttack (topValid : Bool)
    (stored : Except String (Option FlatHistory)) (raw : List RawAttack)
    (q : ℚ) : Except String (Option Nat) :=
  if topValid = false then
    .error "Invalid topElement: Expected a jQuery object."
  else
    match stored with
    | .error msg => .error ("Chrome storage error: " ++ msg)
    | .ok v => .ok (selectAttackCore (v.getD []) raw q)

/-- The record the flat updater stores for the event's opponent, as a
function of the opponent's current record (if any). -/
def Flat.nextRec (cur : Option OppRecord) (result : AttackResult) :
    OppRecord :=
  match cur with
  | some rec =>
    let rec1 : OppRecord :=
      { rec with
        results := rec.results ++ [result]
        attackCount := rec.attackCount + 1 }
    if result.state = "win" then
      { rec1 with
        wins := rec1.wins + 1
        goldWon := rec1.goldWon + numOr0 result.goldWon }
    else if result.state = "loss" then
      { rec1 with losses := rec1.losses + 1 }
    else
      { rec1 with draws := rec1.draws + 1 }
  | none =>
    { results := [result]
      wins := if result.state = "win" then 1 else 0
      losses := if result.state = "loss" then 1 else 0
      draws := if result.state = "draw" then 1 else 0
      goldWon := if result.state = "win" then numOr0 result.goldWon else 0
      xpGained := numOr0 result.xpGained
      attackCount := 1 }

/-- The record the report-keyed updater stores for the event's opponent, as
a function of the opponent's current record and of whether the report id was
already present (`alreadyExists`). -/
def Reports.nextOpp (cur : Option TurmaOpp) (alreadyExists : Bool)
    (reportId : String) (f : FightData) : TurmaOpp :=
  let oppRecord := cur.getD zeroOpp
  let rec1 :=
    if oppRecord.reportIds.contains reportId then oppRecord
    else { oppRecord with reportIds := oppRecord.reportIds ++ [reportId] }
  if alreadyExists then rec1
  else
    let recA := { rec1 with attackCount := rec1.attackCount + 1 }
    let recB :=
      if f.state = "win" then
        { recA with
          wins := recA.wins + 1
          goldWon := recA.goldWon + numOr0 f.goldWon }
      else if f.state = "loss" then
        { recA with losses := recA.losses + 1 }
      else
        { recA with draws := recA.draws + 1 }
    { recB with xpGained := recB.xpGained + numOr0 f.xpGained }

namespace Flat

/-- The condition `history && history.attackCount > 0` is falsy for this
opponent name:
either no record is stored, or the stored record has `attackCount == 0`. -/
def noUsableHistory (hist : FlatHistory) (name : String) : Bool :=
  match jsLookup hist name with
  | none => true
  | some rec => rec.attackCount == 0

end Flat

/-! ## Characterisation lemmas for the two updaters -/

theorem jsLookup_jsSet_self {α : Type} (h : List (String × α)) (k : String)
    (v : α) : jsLookup (jsSet h k v) k = some v := by
  induction h with
  | nil => simp [jsSet, jsLookup]
  | cons p t ih =>
    obtain ⟨k', w⟩ := p
    by_cases hk : k' = k
    · simp [jsSet, hk, jsLookup]
    · simp [jsSet, hk, jsLookup, ih]

theorem jsLookup_jsSet_ne {α : Type} (h : List (String × α)) (k k' : String)
    (v : α) (hne : k' ≠ k) : jsLookup (jsSet h k v) k' = jsLookup h k' := by
  have hkk : ¬k = k' := fun hh => hne hh.symm
  induction h with
  | nil => simp [jsSet, jsLookup, hkk]
  | cons p t ih =>
    obtain ⟨k'', w⟩ := p
    by_cases hk : k'' = k
    · subst hk
      simp [jsSet, jsLookup, hkk]
    · by_cases hk' : k'' = k'
      · subst hk'
        simp [jsSet, hk, jsLookup]
      · simp [jsSet, hk, jsLookup, hk', ih]

theorem mem_jsSet {α : Type} {h : List (String × α)} {k : String} {v : α}
    {p : String × α} (hp : p ∈ jsSet h k v) : p = (k, v) ∨ p ∈ h := by
  induction h with
  | nil =>
    simp only [jsSet, List.mem_singleton] at hp
    exact Or.inl hp
  | cons q t ih =>
    obtain ⟨k', w⟩ := q
    simp only [jsSet] at hp
    by_cases hk : k' = k
    · rw [if_pos hk] at hp
      rcases List.mem_cons.mp hp with hp | hp
      · exact Or.inl hp
      · exact Or.inr (List.mem_cons_of_mem _ hp)
    · rw [if_neg hk] at hp
      rcases List.mem_cons.mp hp with hp | hp
      · exact Or.inr (hp ▸ List.mem_cons_self _ _)
      · rcases ih hp with hp' | hp'
        · exact Or.inl hp'
        · exact Or.inr (List.mem_cons_of_mem _ hp')

theorem mem_of_jsLookup_eq_some {α : Type} {h : List (String × α)}
    {k : String} {v : α} (hl : jsLookup h k = some v) : (k, v) ∈ h := by
  induction h with
  | nil => simp [jsLookup] at hl
  | cons p t ih =>
    obtain ⟨k', w⟩ := p
    simp only [jsLookup] at hl
    by_cases hk : k' = k
    · subst hk
      rw [if_pos rfl] at hl
      obtain rfl : w = v := Option.some.inj hl
      exact List.mem_cons_self _ _
    · rw [if_neg hk] at hl
      exact List.mem_cons_of_mem _ (ih hl)



theorem Flat.updateTurmaAttackHistory_eq (hist : FlatHistory) (o : String)
    (e : AttackResult) :
    Flat.updateTurmaAttackHistory hist o e
      = jsSet hist o (Flat.nextRec (jsLookup hist o) e) := by
  unfold Flat.updateTurmaAttackHistory Flat.nextRec
  cases jsLookup hist o <;> rfl

theorem Reports.update_opponents_eq (s : TurmaStore) (r o : String)
    (f : FightData) (now : String) :
    (Reports.updateTurmaAttackHistory s r o f now).opponents
      = jsSet
          (if (jsLookup s.opponents o).isSome then s.opponents
           else jsSet s.opponents o zeroOpp)
          o
          (Reports.nextOpp (jsLookup s.opponents o)
            ((jsLookup s.reports r).isSome) r f) := by
  unfold Reports.updateTurmaAttackHistory Reports.nextOpp
  cases hcur : jsLookup s.opponents o with
  | some rec => simp [hcur]
  | none => simp [hcur, jsLookup_jsSet_self]

theorem Reports.update_opponents_lookup (s : TurmaStore) (r o : String)
    (f : FightData) (now : String) :
    jsLookup (Reports.updateTurmaAttackHistory s r o f now).opponents o
      = some (Reports.nextOpp (jsLookup s.opponents o)
          ((jsLookup s.reports r).isSome) r f) := by
  rw [Reports.update_opponents_eq, jsLookup_jsSet_self]

theorem Reports.update_reports_isSome (s : TurmaStore) (r o : String)
    (f : FightData) (now : String) :
    (jsLookup (Reports.updateTurmaAttackHistory s r o f now).reports r).isSome
      = true := by
  unfold Reports.updateTurmaAttackHistory
  by_cases h : (jsLookup s.reports r).isSome
  · simp [h]
  · simp [h, jsLookup_jsSet_self]

/-- With `alreadyExists = true` the updated record keeps all six aggregate
counters of the current record (only `reportIds` may change). -/
theorem Reports.nextOpp_agg_of_alreadyExists (cur : Option TurmaOpp)
    (r : String) (f : FightData) :
    (Reports.nextOpp cur true r f).wins = (cur.getD zeroOpp).wins
    ∧ (Reports.nextOpp cur true r f).losses = (cur.getD zeroOpp).losses
    ∧ (Reports.nextOpp cur true r f).draws = (cur.getD zeroOpp).draws
    ∧ (Reports.nextOpp cur true r f).goldWon = (cur.getD zeroOpp).goldWon
    ∧ (Reports.nextOpp cur true r f).xpGained = (cur.getD zeroOpp).xpGained
    ∧ (Reports.nextOpp cur true r f).attackCount
        = (cur.getD zeroOpp).attackCount := by
  unfold Reports.nextOpp
  rw [if_pos rfl]
  split <;> simp

/-- With `alreadyExists = false` the updated record gains exactly one
`attackCount`, the event's `xpGained`, the event's `goldWon` only on a win,
and exactly one of the three outcome counters. -/
theorem Reports.nextOpp_agg_of_new (cur : Option TurmaOpp) (r : String)
    (f : FightData) :
    (Reports.nextOpp cur false r f).attackCount
        = (cur.getD zeroOpp).attackCount + 1
    ∧ (Reports.nextOpp cur false r f).xpGained
        = (cur.getD zeroOpp).xpGained + numOr0 f.xpGained
    ∧ (Reports.nextOpp cur false r f).goldWon
        = (if f.state = "win" then
            (cur.getD zeroOpp).goldWon + numOr0 f.goldWon
           else (cur.getD zeroOpp).goldWon)
    ∧ (Reports.nextOpp cur false r f).wins
        + (Reports.nextOpp cur false r f).losses
        + (Reports.nextOpp cur false r f).draws
        = (cur.getD zeroOpp).wins + (cur.getD zeroOpp).losses
          + (cur.getD zeroOpp).draws + 1 := by
  unfold Reports.nextOpp
  rw [if_neg (by decide : ¬(false = true))]
  split <;>
    (by_cases hw : f.state = "win" <;> by_cases hl : f.state = "loss" <;>
      simp [hw, hl] <;> omega)

/-- C1: the report-keyed `updateTurmaAttackHistory` is idempotent under a
repeated `reportId`: when the event's `reportId` is already present in the
store's `reports` map, a further call with that `reportId` leaves the
opponent's `wins`, `losses`, `draws`, `goldWon`, `xpGained` and
`attackCount` aggregates unchanged; in particular, after two calls with the
same `reportId` starting from the empty store the record's `attackCount`
is 1, not 2. -/
theorem updateTurmaAttackHistory_idempotent_on_seen_report
    (s : TurmaStore) (r o : String) (f : FightData) (now now2 : String)
    (h : (jsLookup s.reports r).isSome = true) :
    Reports.oppAggOf (Reports.updateTurmaAttackHistory s r o f now) o
      = Reports.oppAggOf s o
    ∧ Reports.attackCountOf
        (Reports.updateTurmaAttackHistory
          (Reports.updateTurmaAttackHistory emptyTurmaStore r o f now)
          r o f now2) o = 1 := by
  constructor
  · have hl := Reports.update_opponents_lookup s r o f now
    rw [h] at hl
    obtain ⟨h1, h2, h3, h4, h5, h6⟩ :=
      Reports.nextOpp_agg_of_alreadyExists (jsLookup s.opponents o) r f
    simp only [Reports.oppAggOf, hl]
    rw [h1, h2, h3, h4, h5, h6]
    cases hcur : jsLookup s.opponents o <;> simp [Reports.zeroOpp]
  · have hs1 := Reports.update_opponents_lookup emptyTurmaStore r o f now
    have hrep := Reports.update_reports_isSome emptyTurmaStore r o f now
    have hs2 := Reports.update_opponents_lookup
      (Reports.updateTurmaAttackHistory emptyTurmaStore r o f now) r o f now2
    rw [hrep] at hs2
    obtain ⟨-, -, -, -, -, h6⟩ :=
      Reports.nextOpp_agg_of_alreadyExists
        (jsLookup (Reports.updateTurmaAttackHistory emptyTurmaStore r o f
          now).opponents o) r f
    simp only [Reports.attackCountOf, hs2]
    rw [h6]
    have he1 : jsLookup emptyTurmaStore.opponents o = none := rfl
    have he2 : (jsLookup emptyTurmaStore.reports r).isSome = false := rfl
    rw [he1, he2] at hs1
    rw [hs1]
    simp only [Option.getD_some]
    have hn := (Reports.nextOpp_agg_of_new none r f).1
    rw [hn]
    simp [Reports.zeroOpp]

theorem updateTurmaAttackHistory_idempotent_on_seen_report_witness :
    (jsLookup ({ reports := [("42", ⟨"win", 3, 5, "t0"⟩)], opponents := [] }
        : TurmaStore).reports "42").isSome = true
    ∧ (Reports.oppAggOf
        (Reports.updateTurmaAttackHistory
          { reports := [("42", ⟨"win", 3, 5, "t0"⟩)], opponents := [] }
          "42" "Ann" ⟨"win", some 3, some 5, none⟩ "t1") "Ann"
        = Reports.oppAggOf
            ({ reports := [("42", ⟨"win", 3, 5, "t0"⟩)], opponents := [] }
              : TurmaStore) "Ann"
      ∧ Reports.attackCountOf
          (Reports.updateTurmaAttackHistory
            (Reports.updateTurmaAttackHistory emptyTurmaStore
              "42" "Ann" ⟨"win", some 3, some 5, none⟩ "t1")
            "42" "Ann" ⟨"win", some 3, some 5, none⟩ "t2") "Ann" = 1) :=
  ⟨by decide,
    updateTurmaAttackHistory_idempotent_on_seen_report
      { reports := [("42", ⟨"win", 3, 5, "t0"⟩)], opponents := [] }
      "42" "Ann" ⟨"win", some 3, some 5, none⟩ "t1" "t2" (by decide)⟩

theorem Flat.jsLookup_update_self (hist : FlatHistory) (o : String)
    (e : AttackResult) :
    jsLookup (Flat.updateTurmaAttackHistory hist o e) o
      = some (Flat.nextRec (jsLookup hist o) e) := by
  rw [Flat.updateTurmaAttackHistory_eq, jsLookup_jsSet_self]

theorem Flat.nextRec_goldWon_of_ne_win (cur : Option OppRecord)
    (e : AttackResult) (h : e.state ≠ "win") :
    (Flat.nextRec cur e).goldWon
      = (match cur with | none => 0 | some rec => rec.goldWon) := by
  unfold Flat.nextRec
  cases cur with
  | none => simp [h]
  | some rec => by_cases hl : e.state = "loss" <;> simp [h, hl]

theorem Flat.nextRec_xpGained (cur : Option OppRecord) (e : AttackResult) :
    (Flat.nextRec cur e).xpGained
      = (match cur with
         | none => numOr0 e.xpGained
         | some rec => rec.xpGained) := by
  unfold Flat.nextRec
  cases cur with
  | none => simp
  | some rec =>
    by_cases hw : e.state = "win" <;> by_cases hl : e.state = "loss" <;>
      simp [hw, hl]

theorem Flat.nextRec_attackCount (cur : Option OppRecord)
    (e : AttackResult) :
    (Flat.nextRec cur e).attackCount
      = (match cur with | none => 0 | some rec => rec.attackCount) + 1 := by
  unfold Flat.nextRec
  cases cur with
  | none => simp
  | some rec =>
    by_cases hw : e.state = "win" <;> by_cases hl : e.state = "loss" <;>
      simp [hw, hl]

theorem Flat.nextRec_results_length (cur : Option OppRecord)
    (e : AttackResult) :
    (Flat.nextRec cur e).results.length
      = (match cur with | none => 0 | some rec => rec.results.length)
        + 1 := by
  unfold Flat.nextRec
  cases cur with
  | none => simp
  | some rec =>
    by_cases hw : e.state = "win" <;> by_cases hl : e.state = "loss" <;>
      simp [hw, hl]

theorem Reports.nextOpp_goldWon_of_ne_win (cur : Option TurmaOpp)
    (aE : Bool) (r : String) (f : FightData) (h : f.state ≠ "win") :
    (Reports.nextOpp cur aE r f).goldWon = (cur.getD zeroOpp).goldWon := by
  cases aE with
  | true => exact (Reports.nextOpp_agg_of_alreadyExists cur r f).2.2.2.1
  | false =>
    have := (Reports.nextOpp_agg_of_new cur r f).2.2.1
    rwa [if_neg h] at this

/-- C6: for an event whose `state` is `"loss"` or `"draw"`, even one carrying
a non-zero `goldWon` field, both history updaters leave the opponent's
`goldWon` aggregate unchanged — gold accrues only on `"win"`. -/
theorem goldWon_unchanged_on_loss_or_draw
    (hist : FlatHistory) (o : String) (e : AttackResult)
    (s : TurmaStore) (r o2 : String) (f : FightData) (now : String)
    (he : e.state = "loss" ∨ e.state = "draw")
    (hf : f.state = "loss" ∨ f.state = "draw") :
    Flat.goldWonOf (Flat.updateTurmaAttackHistory hist o e) o
      = Flat.goldWonOf hist o
    ∧ Reports.goldWonOf (Reports.updateTurmaAttackHistory s r o2 f now) o2
      = Reports.goldWonOf s o2 := by
  have hne : e.state ≠ "win" := by
    rcases he with h | h <;> rw [h] <;> decide
  have hnf : f.state ≠ "win" := by
    rcases hf with h | h <;> rw [h] <;> decide
  constructor
  · simp only [Flat.goldWonOf, Flat.jsLookup_update_self]
    rw [Flat.nextRec_goldWon_of_ne_win _ _ hne]
  · simp only [Reports.goldWonOf, Reports.update_opponents_lookup]
    rw [Reports.nextOpp_goldWon_of_ne_win _ _ _ _ hnf]
    cases jsLookup s.opponents o2 <;> simp [Reports.zeroOpp]

theorem goldWon_unchanged_on_loss_or_draw_witness :
    (("loss" : String) = "loss" ∨ ("loss" : String) = "draw")
    ∧ (Flat.goldWonOf
        (Flat.updateTurmaAttackHistory
          [("Ann", ⟨[], 1, 0, 0, 10, 0, 1⟩)] "Ann" ⟨"loss", some 9, some 2⟩)
        "Ann"
        = Flat.goldWonOf [("Ann", ⟨[], 1, 0, 0, 10, 0, 1⟩)] "Ann"
      ∧ Reports.goldWonOf
          (Reports.updateTurmaAttackHistory emptyTurmaStore
            "7" "Bob" ⟨"loss", some 9, some 2, none⟩ "t") "Bob"
        = Reports.goldWonOf emptyTurmaStore "Bob") :=
  ⟨Or.inl rfl,
    goldWon_unchanged_on_loss_or_draw
      [("Ann", ⟨[], 1, 0, 0, 10, 0, 1⟩)] "Ann" ⟨"loss", some 9, some 2⟩
      emptyTurmaStore "7" "Bob" ⟨"loss", some 9, some 2, none⟩ "t"
      (Or.inl rfl) (Or.inl rfl)⟩

/-- C4 counterexample: in the flat variant (`src/storage.js`), when a record
for the opponent already exists, the event's `xpGained` is NOT added: after
a `"win"` carrying `xpGained = 5` and then a `"loss"` carrying
`xpGained = 7`, the aggregate is still 5, not 5 + 7. -/
theorem flat_xpGained_not_added_cex :
    Flat.xpGainedOf
      (Flat.updateTurmaAttackHistory
        (Flat.updateTurmaAttackHistory [] "Ann" ⟨"win", some 0, some 5⟩)
        "Ann" ⟨"loss", some 3, some 7⟩) "Ann" = 5
    ∧ (5 : Int) ≠ 5 + 7 := by
  constructor
  · decide
  · decide

/-- C4 amended: the event's `xpGained` is added to the opponent's aggregate
regardless of outcome state in the reports/opponents variant
(`src/unnamed/part_001`) whenever the report is new; in the flat variant
(`src/storage.js`), `xpGained` is captured only when the opponent's record
is created, and a call on an existing record leaves the aggregate
unchanged. -/
theorem xpGained_added_on_new_report_only
    (s : TurmaStore) (r o : String) (f : FightData) (now : String)
    (hnew : jsLookup s.reports r = none)
    (hist : FlatHistory) (o2 : String) (e : AttackResult) (rec : OppRecord)
    (hrec : jsLookup hist o2 = some rec)
    (hist2 : FlatHistory) (o3 : String) (e3 : AttackResult)
    (hnone : jsLookup hist2 o3 = none) :
    Reports.xpGainedOf (Reports.updateTurmaAttackHistory s r o f now) o
      = Reports.xpGainedOf s o + numOr0 f.xpGained
    ∧ Flat.xpGainedOf (Flat.updateTurmaAttackHistory hist o2 e) o2
      = rec.xpGained
    ∧ Flat.xpGainedOf (Flat.updateTurmaAttackHistory hist2 o3 e3) o3
      = numOr0 e3.xpGained := by
  refine ⟨?_, ?_, ?_⟩
  · simp only [Reports.xpGainedOf, Reports.update_opponents_lookup, hnew,
      Option.isSome_none]
    rw [(Reports.nextOpp_agg_of_new (jsLookup s.opponents o) r f).2.1]
    cases jsLookup s.opponents o <;> simp [Reports.zeroOpp]
  · simp only [Flat.xpGainedOf, Flat.jsLookup_update_self,
      Flat.nextRec_xpGained, hrec]
  · simp only [Flat.xpGainedOf, Flat.jsLookup_update_self,
      Flat.nextRec_xpGained, hnone]

theorem xpGained_added_on_new_report_only_witness :
    jsLookup emptyTurmaStore.reports "7" = none
    ∧ jsLookup [("Ann", (⟨[], 1, 0, 0, 0, 5, 1⟩ : OppRecord))] "Ann"
        = some ⟨[], 1, 0, 0, 0, 5, 1⟩
    ∧ jsLookup ([] : FlatHistory) "Bob" = none
    ∧ (Reports.xpGainedOf
        (Reports.updateTurmaAttackHistory emptyTurmaStore
          "7" "Cid" ⟨"loss", some 3, some 7, none⟩ "t") "Cid"
        = Reports.xpGainedOf emptyTurmaStore "Cid"
          + numOr0 (some (7 : Int))
      ∧ Flat.xpGainedOf
          (Flat.updateTurmaAttackHistory
            [("Ann", ⟨[], 1, 0, 0, 0, 5, 1⟩)] "Ann" ⟨"loss", some 3, some 7⟩)
          "Ann" = (⟨[], 1, 0, 0, 0, 5, 1⟩ : OppRecord).xpGained
      ∧ Flat.xpGainedOf
          (Flat.updateTurmaAttackHistory [] "Bob" ⟨"loss", some 3, some 7⟩)
          "Bob" = numOr0 (some (7 : Int))) :=
  ⟨rfl, rfl, rfl,
    xpGained_added_on_new_report_only emptyTurmaStore "7" "Cid"
      ⟨"loss", some 3, some 7, none⟩ "t" rfl
      [("Ann", ⟨[], 1, 0, 0, 0, 5, 1⟩)] "Ann" ⟨"loss", some 3, some 7⟩
      ⟨[], 1, 0, 0, 0, 5, 1⟩ rfl
      [] "Bob" ⟨"loss", some 3, some 7⟩ rfl⟩

theorem Flat.nextRec_count_inv (cur : Option OppRecord) (e : AttackResult)
    (hstate : e.state = "win" ∨ e.state = "loss" ∨ e.state = "draw")
    (hcur : ∀ rec, cur = some rec
      → rec.attackCount = rec.wins + rec.losses + rec.draws) :
    (Flat.nextRec cur e).attackCount
      = (Flat.nextRec cur e).wins + (Flat.nextRec cur e).losses
        + (Flat.nextRec cur e).draws := by
  unfold Flat.nextRec
  cases cur with
  | none => rcases hstate with h | h | h <;> simp [h]
  | some rec =>
    have hc := hcur rec rfl
    by_cases hw : e.state = "win" <;> by_cases hl : e.state = "loss" <;>
      simp [hw, hl] <;> omega

theorem flat_countInv_update (hist : FlatHistory) (o : String)
    (e : AttackResult)
    (hstate : e.state = "win" ∨ e.state = "loss" ∨ e.state = "draw")
    (hinv : FlatCountInv hist) :
    FlatCountInv (Flat.updateTurmaAttackHistory hist o e) := by
  intro p hp
  rw [Flat.updateTurmaAttackHistory_eq] at hp
  rcases mem_jsSet hp with hp | hp
  · rw [hp]
    exact Flat.nextRec_count_inv _ _ hstate
      (fun rec hrec => hinv (o, rec) (mem_of_jsLookup_eq_some hrec))
  · exact hinv p hp

theorem flat_countInv_foldl (events : List (String × AttackResult))
    (init : FlatHistory)
    (hstate : ∀ e ∈ events,
      e.2.state = "win" ∨ e.2.state = "loss" ∨ e.2.state = "draw")
    (hinit : FlatCountInv init) :
    FlatCountInv (events.foldl
      (fun acc p => Flat.updateTurmaAttackHistory acc p.1 p.2) init) := by
  induction events generalizing init with
  | nil => simpa using hinit
  | cons e t ih =>
    simp only [List.foldl_cons]
    exact ih _ (fun x hx => hstate x (List.mem_cons_of_mem _ hx))
      (flat_countInv_update _ _ _ (hstate e (List.mem_cons_self _ _)) hinit)

theorem Reports.nextOpp_count_inv (cur : Option TurmaOpp) (aE : Bool)
    (r : String) (f : FightData)
    (hcur : ∀ rec, cur = some rec
      → rec.attackCount = rec.wins + rec.losses + rec.draws) :
    (Reports.nextOpp cur aE r f).attackCount
      = (Reports.nextOpp cur aE r f).wins
        + (Reports.nextOpp cur aE r f).losses
        + (Reports.nextOpp cur aE r f).draws := by
  have hbase : (cur.getD zeroOpp).attackCount
      = (cur.getD zeroOpp).wins + (cur.getD zeroOpp).losses
        + (cur.getD zeroOpp).draws := by
    cases cur with
    | none => rfl
    | some rec => simpa using hcur rec rfl
  cases aE with
  | true =>
    obtain ⟨h1, h2, h3, -, -, h6⟩ :=
      Reports.nextOpp_agg_of_alreadyExists cur r f
    rw [h1, h2, h3, h6, hbase]
  | false =>
    obtain ⟨h1, -, -, h4⟩ := Reports.nextOpp_agg_of_new cur r f
    omega

theorem rep_countInv_update (s : TurmaStore) (r o : String) (f : FightData)
    (now : String) (hinv : RepCountInv s) :
    RepCountInv (Reports.updateTurmaAttackHistory s r o f now) := by
  intro p hp
  rw [Reports.update_opponents_eq] at hp
  rcases mem_jsSet hp with hp | hp
  · rw [hp]
    exact Reports.nextOpp_count_inv _ _ _ _
      (fun rec hrec => hinv (o, rec) (mem_of_jsLookup_eq_some hrec))
  · by_cases hc : (jsLookup s.opponents o).isSome
    · rw [if_pos hc] at hp
      exact hinv p hp
    · rw [if_neg hc] at hp
      rcases mem_jsSet hp with hp | hp
      · rw [hp]
        rfl
      · exact hinv p hp

theorem rep_countInv_foldl
    (revents : List (String × String × FightData × String))
    (init : TurmaStore) (hinit : RepCountInv init) :
    RepCountInv (revents.foldl
      (fun acc p =>
        Reports.updateTurmaAttackHistory acc p.1 p.2.1 p.2.2.1 p.2.2.2)
      init) := by
  induction revents generalizing init with
  | nil => simpa using hinit
  | cons e t ih =>
    simp only [List.foldl_cons]
    exact ih _ (rep_countInv_update _ _ _ _ _ hinit)

/-- C2: starting from an empty history, after any sequence of
`updateTurmaAttackHistory` calls (with events whose `state` lies in
{win, loss, draw}, the range of the spec's `Event.state`), every opponent
record satisfies `attackCount == wins + losses + draws` — in the flat-map
variant and in the reports/opponents variant alike. -/
theorem attackCount_eq_outcome_sum
    (events : List (String × AttackResult))
    (hstate : ∀ e ∈ events,
      e.2.state = "win" ∨ e.2.state = "loss" ∨ e.2.state = "draw")
    (revents : List (String × String × FightData × String)) :
    FlatCountInv (events.foldl
      (fun acc p => Flat.updateTurmaAttackHistory acc p.1 p.2) [])
    ∧ RepCountInv (revents.foldl
        (fun acc p =>
          Reports.updateTurmaAttackHistory acc p.1 p.2.1 p.2.2.1 p.2.2.2)
        emptyTurmaStore) :=
  ⟨flat_countInv_foldl events [] hstate (fun p hp => absurd hp
      (List.not_mem_nil p)),
    rep_countInv_foldl revents emptyTurmaStore (fun p hp => absurd hp
      (List.not_mem_nil p))⟩

theorem attackCount_eq_outcome_sum_witness :
    (∀ e ∈ ([("Ann", ⟨"win", some 1, some 2⟩),
             ("Ann", ⟨"draw", none, none⟩),
             ("Bob", ⟨"loss", some 4, none⟩)]
        : List (String × AttackResult)),
      e.2.state = "win" ∨ e.2.state = "loss" ∨ e.2.state = "draw")
    ∧ (FlatCountInv
        (([("Ann", ⟨"win", some 1, some 2⟩),
           ("Ann", ⟨"draw", none, none⟩),
           ("Bob", ⟨"loss", some 4, none⟩)]
            : List (String × AttackResult)).foldl
          (fun acc p => Flat.updateTurmaAttackHistory acc p.1 p.2) [])
      ∧ RepCountInv
          (([("42", "Bob", ⟨"loss", none, none, none⟩, "t")]
              : List (String × String × FightData × String)).foldl
            (fun acc p =>
              Reports.updateTurmaAttackHistory acc p.1 p.2.1 p.2.2.1 p.2.2.2)
            emptyTurmaStore)) :=
  ⟨by decide,
    attackCount_eq_outcome_sum
      [("Ann", ⟨"win", some 1, some 2⟩),
        ("Ann", ⟨"draw", none, none⟩),
        ("Bob", ⟨"loss", some 4, none⟩)]
      (by decide)
      [("42", "Bob", ⟨"loss", none, none, none⟩, "t")]⟩

theorem Flat.nextRec_len_inv (cur : Option OppRecord) (e : AttackResult)
    (hcur : ∀ rec, cur = some rec
      → rec.results.length = rec.attackCount) :
    (Flat.nextRec cur e).results.length
      = (Flat.nextRec cur e).attackCount := by
  rw [Flat.nextRec_results_length, Flat.nextRec_attackCount]
  cases cur with
  | none => rfl
  | some rec => simpa using hcur rec rfl

theorem flat_lenInv_update (hist : FlatHistory) (o : String)
    (e : AttackResult) (hinv : FlatLenInv hist) :
    FlatLenInv (Flat.updateTurmaAttackHistory hist o e) := by
  intro p hp
  rw [Flat.updateTurmaAttackHistory_eq] at hp
  rcases mem_jsSet hp with hp | hp
  · rw [hp]
    exact Flat.nextRec_len_inv _ _
      (fun rec hrec => hinv (o, rec) (mem_of_jsLookup_eq_some hrec))
  · exact hinv p hp

/-- C10: in the flat-map variant, every call appends exactly one element to
the opponent's `results` array and increments `attackCount` by exactly one
(creation included), so `results.length == attackCount` holds for every
record after any sequence of calls from the empty history — the flat
variant performs no de-duplication and its raw results list grows on every
call. -/
theorem flat_results_length_eq_attackCount
    (hist : FlatHistory) (o : String) (e : AttackResult)
    (events : List (String × AttackResult)) :
    Flat.resultsLenOf (Flat.updateTurmaAttackHistory hist o e) o
      = Flat.resultsLenOf hist o + 1
    ∧ Flat.attackCountOf (Flat.updateTurmaAttackHistory hist o e) o
      = Flat.attackCountOf hist o + 1
    ∧ FlatLenInv (events.foldl
        (fun acc p => Flat.updateTurmaAttackHistory acc p.1 p.2) []) := by
  refine ⟨?_, ?_, ?_⟩
  · simp only [Flat.resultsLenOf, Flat.jsLookup_update_self,
      Flat.nextRec_results_length]
  · simp only [Flat.attackCountOf, Flat.jsLookup_update_self,
      Flat.nextRec_attackCount]
  · induction events using List.reverseRecOn with
    | nil => exact fun p hp => absurd hp (List.not_mem_nil p)
    | append_singleton t e2 ih =>
      rw [List.foldl_append, List.foldl_cons, List.foldl_nil]
      exact flat_lenInv_update _ _ _ ih

theorem mem_insertBy {le : Candidate → Candidate → Bool} {a x : Candidate} :
    ∀ {l : List Candidate}, x ∈ insertBy le a l ↔ x = a ∨ x ∈ l := by
  intro l
  induction l with
  | nil => simp [insertBy]
  | cons b t ih =>
    by_cases h : le a b = true
    · simp [insertBy, h]
    · simp only [insertBy, if_neg h, List.mem_cons, ih]
      tauto

theorem mem_stableSortBy {le : Candidate → Candidate → Bool}
    {x : Candidate} : ∀ {l : List Candidate},
    x ∈ stableSortBy le l ↔ x ∈ l := by
  intro l
  induction l with
  | nil => simp [stableSortBy]
  | cons a t ih => simp [stableSortBy, mem_insertBy, ih]

theorem stableSortBy_eq_self {le : Candidate → Candidate → Bool}
    {l : List Candidate} (h : l.Pairwise (fun a b => le a b = true)) :
    stableSortBy le l = l := by
  induction l with
  | nil => rfl
  | cons a t ih =>
    rw [stableSortBy, ih (List.pairwise_cons.mp h).2]
    cases t with
    | nil => rfl
    | cons b t2 =>
      rw [insertBy,
        if_pos ((List.pairwise_cons.mp h).1 b (List.mem_cons_self _ _))]

theorem extractOpponents_nil (hist : FlatHistory) :
    extractOpponents hist [] = [] := rfl

theorem selectAttackCore_mem_candidates (hist : FlatHistory)
    (raw : List RawAttack) (q : ℚ) (x : Nat)
    (hne : extractOpponents hist raw ≠ [])
    (hsel : selectAttackCore hist raw q = some x) :
    x ∈ (extractOpponents hist raw).map (fun c => c.handle) := by
  have hrne : raw ≠ [] := by
    intro h0
    rw [h0, extractOpponents_nil] at hne
    exact hne rfl
  have hr : ¬raw.length = 0 := fun h0 => hrne (List.length_eq_zero.mp h0)
  have ho : ¬(extractOpponents hist raw).length = 0 := fun h0 =>
    hne (List.length_eq_zero.mp h0)
  obtain ⟨top, rest, hs⟩ : ∃ top rest,
      stableSortBy rankLe (extractOpponents hist raw) = top :: rest := by
    cases hsort : stableSortBy rankLe (extractOpponents hist raw) with
    | nil =>
      exfalso
      obtain ⟨c, cs, hc⟩ := List.exists_cons_of_ne_nil hne
      have : c ∈ stableSortBy rankLe (extractOpponents hist raw) :=
        mem_stableSortBy.mpr (hc ▸ List.mem_cons_self _ _)
      rw [hsort] at this
      exact List.not_mem_nil c this
    | cons a b => exact ⟨a, b, rfl⟩
  simp only [selectAttackCore] at hsel
  rw [if_neg hr, if_neg ho, hs] at hsel
  have hsel' : (if 0 < top.winRate then some top.handle
      else Option.map (fun c => c.handle)
        (top :: rest)[(⌊q * ((top :: rest).length : ℚ)⌋).toNat]?)
      = some x := hsel
  by_cases hw : 0 < top.winRate
  · rw [if_pos hw] at hsel'
    obtain rfl : top.handle = x := Option.some.inj hsel'
    have htop : top ∈ extractOpponents hist raw :=
      mem_stableSortBy.mp (hs ▸ List.mem_cons_self _ _)
    exact List.mem_map.mpr ⟨top, htop, rfl⟩
  · rw [if_neg hw] at hsel'
    obtain ⟨c, hc, rfl⟩ := Option.map_eq_some'.mp hsel'
    obtain ⟨hlt, hidx⟩ := List.getElem?_eq_some.mp hc
    have hcmem : c ∈ top :: rest := hidx ▸ List.getElem_mem hlt
    have : c ∈ extractOpponents hist raw :=
      mem_stableSortBy.mp (hs ▸ hcmem)
    exact List.mem_map.mpr ⟨c, this, rfl⟩

/-- C3: whenever `selectOptimalAttack` resolves with a non-null result, the
returned handle belongs to the extracted candidate list — on the
deterministic top-ranked branch and on the random all-zero-win-rate branch
alike. -/
theorem selectOptimalAttack_mem_candidates (v : Option FlatHistory)
    (raw : List RawAttack) (q : ℚ) (x : Nat)
    (hne : extractOpponents (v.getD []) raw ≠ [])
    (hsel : selectOptimalAttack true (.ok v) raw q = .ok (some x)) :
    x ∈ (extractOpponents (v.getD []) raw).map (fun c => c.handle) := by
  apply selectAttackCore_mem_candidates (v.getD []) raw q x hne
  have hok : Except.ok (ε := String) (selectAttackCore (v.getD []) raw q)
      = .ok (some x) := hsel
  exact Except.ok.inj hok

theorem selectOptimalAttack_mem_candidates_witness :
    extractOpponents ((none : Option FlatHistory).getD [])
      [⟨true, "Bob", 7⟩] ≠ []
    ∧ selectOptimalAttack true (.ok none) [⟨true, "Bob", 7⟩] 0
        = .ok (some 7)
    ∧ 7 ∈ (extractOpponents ((none : Option FlatHistory).getD [])
        [⟨true, "Bob", 7⟩]).map (fun c => c.handle) :=
  ⟨by decide, by rfl,
    selectOptimalAttack_mem_candidates none [⟨true, "Bob", 7⟩] 0 7
      (by decide) (by rfl)⟩

theorem extract_candidate_default (hist : FlatHistory)
    (raw : List RawAttack)
    (hno : ∀ a ∈ raw, Flat.noUsableHistory hist a.name = true) :
    ∀ c ∈ extractOpponents hist raw,
      c.winRate = mkRat 1 2 ∧ c.averageGold = 100 := by
  intro c hc
  unfold extractOpponents at hc
  obtain ⟨a, ha, hfa⟩ := List.mem_filterMap.mp hc
  have hn := hno a ha
  unfold Flat.noUsableHistory at hn
  by_cases hrow : a.hasRow = false
  · rw [if_pos hrow] at hfa
    cases hfa
  · rw [if_neg hrow] at hfa
    by_cases hname : a.name = ""
    · rw [if_pos hname] at hfa
      cases hfa
    · rw [if_neg hname] at hfa
      cases hlook : jsLookup hist a.name with
      | none =>
        rw [hlook] at hfa
        have hfa' : some (⟨a.handle, a.name, mkRat 1 2, 100⟩ : Candidate)
            = some c := hfa
        obtain rfl := Option.some.inj hfa'
        exact ⟨rfl, rfl⟩
      | some rec =>
        rw [hlook] at hfa hn
        have hn' : (rec.attackCount == 0) = true := hn
        have hz : rec.attackCount = 0 := by simpa using hn'
        have hfa' : (if 0 < rec.attackCount then
            some (⟨a.handle, a.name,
              (rec.wins : ℚ) / (rec.attackCount : ℚ),
              if 0 < rec.wins then (rec.goldWon : ℚ) / (rec.wins : ℚ)
              else 0⟩ : Candidate)
          else
            some (⟨a.handle, a.name, mkRat 1 2, 100⟩ : Candidate))
            = some c := hfa
        rw [if_neg (by rw [hz]; exact lt_irrefl 0)] at hfa'
        obtain rfl := Option.some.inj hfa'
        exact ⟨rfl, rfl⟩

theorem rankLe_of_defaults {a b : Candidate}
    (hag : a.winRate = mkRat 1 2 ∧ a.averageGold = 100)
    (hbg : b.winRate = mkRat 1 2 ∧ b.averageGold = 100) :
    rankLe a b = true := by
  unfold rankLe
  rw [hag.1, hag.2, hbg.1, hbg.2]
  rw [if_neg (by simp)]
  decide

theorem selectAttackCore_default_prior_first (hist : FlatHistory)
    (raw : List RawAttack) (q : ℚ)
    (hno : ∀ a ∈ raw, Flat.noUsableHistory hist a.name = true)
    (hne : extractOpponents hist raw ≠ []) :
    (∀ c ∈ extractOpponents hist raw,
      c.winRate = mkRat 1 2 ∧ c.averageGold = 100)
    ∧ selectAttackCore hist raw q
      = (extractOpponents hist raw).head?.map (fun c => c.handle) := by
  have hdef := extract_candidate_default hist raw hno
  refine ⟨hdef, ?_⟩
  have hsort : stableSortBy rankLe (extractOpponents hist raw)
      = extractOpponents hist raw :=
    stableSortBy_eq_self (List.pairwise_of_forall_mem_list
      (fun a ha b hb => rankLe_of_defaults (hdef a ha) (hdef b hb)))
  have hrne : raw ≠ [] := by
    intro h0
    rw [h0, extractOpponents_nil] at hne
    exact hne rfl
  have hr : ¬raw.length = 0 := fun h0 => hrne (List.length_eq_zero.mp h0)
  have ho : ¬(extractOpponents hist raw).length = 0 := fun h0 =>
    hne (List.length_eq_zero.mp h0)
  obtain ⟨top, rest, hs⟩ := List.exists_cons_of_ne_nil hne
  simp only [selectAttackCore]
  rw [if_neg hr, if_neg ho, hsort, hs]
  have htd := hdef top (hs ▸ List.mem_cons_self _ _)
  have hgoal : (if 0 < top.winRate then some top.handle
      else Option.map (fun c => c.handle)
        (top :: rest)[(⌊q * ((top :: rest).length : ℚ)⌋).toNat]?)
      = Option.map (fun c => c.handle) (top :: rest).head? := by
    rw [if_pos (by rw [htd.1]; decide)]
    simp
  exact hgoal

/-- C5: when no candidate has a usable history record (none stored, or all
stored with `attackCount == 0`), every candidate receives the neutral prior
`winRate = 0.5`, `averageReward = 100`; the random branch is never taken
(the top `winRate` is `0.5 > 0`) and the stable sort keeps the full tie in
input order, so `selectOptimalAttack` resolves with the first extracted
candidate. -/
theorem selectOptimalAttack_default_prior_first (v : Option FlatHistory)
    (raw : List RawAttack) (q : ℚ)
    (hno : ∀ a ∈ raw, Flat.noUsableHistory (v.getD []) a.name = true)
    (hne : extractOpponents (v.getD []) raw ≠ []) :
    (∀ c ∈ extractOpponents (v.getD []) raw,
      c.winRate = mkRat 1 2 ∧ c.averageGold = 100)
    ∧ selectOptimalAttack true (.ok v) raw q
      = .ok ((extractOpponents (v.getD []) raw).head?.map
          (fun c => c.handle)) := by
  obtain ⟨h1, h2⟩ :=
    selectAttackCore_default_prior_first (v.getD []) raw q hno hne
  refine ⟨h1, ?_⟩
  simp only [selectOptimalAttack]
  rw [if_neg (by decide : ¬(true = false)), h2]

theorem selectOptimalAttack_default_prior_first_witness :
    (∀ a ∈ ([⟨true, "Bob", 0⟩, ⟨true, "Ann", 1⟩] : List RawAttack),
      Flat.noUsableHistory ((none : Option FlatHistory).getD [])
        a.name = true)
    ∧ extractOpponents ((none : Option FlatHistory).getD [])
        [⟨true, "Bob", 0⟩, ⟨true, "Ann", 1⟩] ≠ []
    ∧ ((∀ c ∈ extractOpponents ((none : Option FlatHistory).getD [])
          [⟨true, "Bob", 0⟩, ⟨true, "Ann", 1⟩],
        c.winRate = mkRat 1 2 ∧ c.averageGold = 100)
      ∧ selectOptimalAttack true (.ok none)
          [⟨true, "Bob", 0⟩, ⟨true, "Ann", 1⟩] 0
        = .ok ((extractOpponents ((none : Option FlatHistory).getD [])
            [⟨true, "Bob", 0⟩, ⟨true, "Ann", 1⟩]).head?.map
            (fun c => c.handle))) :=
  ⟨by decide, by decide,
    selectOptimalAttack_default_prior_first none
      [⟨true, "Bob", 0⟩, ⟨true, "Ann", 1⟩] 0 (by decide) (by decide)⟩

/-- C7: when the storage backend reports an error during the history read
inside `selectOptimalAttack` (Chrome's `lastError` is set in the `get`
callback), the promise is rejected with the storage error — the failure is
propagated to the caller, not swallowed or degraded to a default. -/
theorem selectOptimalAttack_storage_error_rejects (msg : String)
    (raw : List RawAttack) (q : ℚ) :
    selectOptimalAttack true (.error msg) raw q
      = .error ("Chrome storage error: " ++ msg) := rfl

/-- C8: the standalone `loadTurmaHistory` never rejects: whatever the
backend outcome — storage error, nothing persisted, or a stored value — it
resolves, and on error or absence it resolves with the empty/default
structure (`{}` in the flat variant, `{reports: {}, opponents: {}}` in the
two-level variant). -/
theorem loadTurmaHistory_never_rejects
    (g : Except String (Option FlatHistory))
    (s : Except String (Option TurmaStore)) (msg msg2 : String) :
    (∃ h, Flat.loadTurmaHistory g = .ok h)
    ∧ (∃ t, Reports.loadTurmaHistory s = .ok t)
    ∧ Flat.loadTurmaHistory (.error msg) = .ok []
    ∧ Reports.loadTurmaHistory (.error msg2) = .ok emptyTurmaStore
    ∧ Flat.loadTurmaHistory (.ok none) = .ok []
    ∧ Reports.loadTurmaHistory (.ok none) = .ok emptyTurmaStore := by
  refine ⟨?_, ?_, rfl, rfl, rfl, rfl⟩
  · cases g with
    | error e => exact ⟨[], rfl⟩
    | ok v =>
      cases v with
      | none => exact ⟨[], rfl⟩
      | some h => exact ⟨h, rfl⟩
  · cases s with
    | error e => exact ⟨emptyTurmaStore, rfl⟩
    | ok v =>
      cases v with
      | none => exact ⟨emptyTurmaStore, rfl⟩
      | some t => exact ⟨t, rfl⟩

/-- C9: when the extracted candidate list is empty (no `.attack` elements,
or none yielding a row and a non-empty name), `selectOptimalAttack`
resolves with `null` and raises no error. -/
theorem selectOptimalAttack_null_on_no_candidates
    (v : Option FlatHistory) (raw : List RawAttack) (q : ℚ)
    (h : extractOpponents (v.getD []) raw = []) :
    selectOptimalAttack true (.ok v) raw q = .ok none := by
  simp only [selectOptimalAttack]
  rw [if_neg (by decide : ¬(true = false))]
  suffices hcore : selectAttackCore (v.getD []) raw q = none by
    rw [hcore]
  simp only [selectAttackCore]
  by_cases hr : raw.length = 0
  · rw [if_pos hr]
  · rw [if_neg hr, if_pos (by rw [h]; rfl)]

theorem selectOptimalAttack_null_on_no_candidates_witness :
    extractOpponents ((none : Option FlatHistory).getD [])
      [⟨false, "Bob", 0⟩, ⟨true, "", 1⟩] = []
    ∧ selectOptimalAttack true (.ok none)
        [⟨false, "Bob", 0⟩, ⟨true, "", 1⟩] 0 = .ok none :=
  ⟨by decide,
    selectOptimalAttack_null_on_no_candidates none
      [⟨false, "Bob", 0⟩, ⟨true, "", 1⟩] 0 (by decide)⟩

end Gladiatus
